import Mathlib

/-
Verification development for the Image_tool_simple repository.

The file embeds, as executable Lean definitions, the parts of the code the
claims talk about:
  * the mask compositing performed by getMaskAsBase64 in
    src/components/MaskingCanvas.tsx (Porter-Duff source-in and
    destination-over on unpremultiplied RGBA pixels with rational channels),
  * the snapshot undo/redo history of the same file
    (saveState / restoreState / undo / redo / clearMask),
  * the batch generation loop of handleGenerate, in its two variants
    (src/components/ImageEditor.tsx and src/unnamed/part_003),
  * the live conversation lifecycle, audio scheduling and transcript
    assembly of src/hooks/useLiveConversation.ts.
-/

namespace ImageTool

/-- Pixel in unpremultiplied RGBA form; channels are rationals in the unit
interval, 1 standing for the 8-bit value 255. -/
structure RGBA where
  r : ℚ
  g : ℚ
  b : ℚ
  a : ℚ
  deriving DecidableEq

/-- Opaque white, the fill color of step 2 of getMaskAsBase64. -/
def white1 : RGBA := ⟨1, 1, 1, 1⟩

/-- Opaque black, the fill color of step 3 of getMaskAsBase64. -/
def black1 : RGBA := ⟨0, 0, 0, 1⟩

/-- Fully transparent pixel, the state of a cleared canvas. -/
def clearPixel : RGBA := ⟨0, 0, 0, 0⟩

/-- General Porter-Duff compositing of a source pixel over a destination
pixel with fractions Fa (for the source term) and Fb (for the destination
term), computed in premultiplied space and converted back, as the HTML
canvas does. A zero output alpha yields the transparent pixel. -/
def pdCompose (Fa Fb : ℚ) (src dst : RGBA) : RGBA :=
  let ao := src.a * Fa + dst.a * Fb
  if ao = 0 then ⟨0, 0, 0, 0⟩
  else
    ⟨(src.a * src.r * Fa + dst.a * dst.r * Fb) / ao,
     (src.a * src.g * Fa + dst.a * dst.g * Fb) / ao,
     (src.a * src.b * Fa + dst.a * dst.b * Fb) / ao,
     ao⟩

/-- The source-in composite operation: Fa is the destination alpha, Fb is
zero. Used by step 2 of getMaskAsBase64 with an opaque white source. -/
def sourceIn (dst src : RGBA) : RGBA := pdCompose dst.a 0 src dst

/-- The destination-over composite operation: Fa is one minus the
destination alpha, Fb is one. Used by step 3 of getMaskAsBase64 with an
opaque black source. -/
def destinationOver (dst src : RGBA) : RGBA := pdCompose (1 - dst.a) 1 src dst

/-- Steps 2 and 3 of getMaskAsBase64 act independently on each pixel of the
mask canvas: first the whole-canvas white fill under source-in, then the
whole-canvas black fill under destination-over. -/
def maskPixel (p : RGBA) : RGBA := destinationOver (sourceIn p white1) black1

/-- A raster image: dimensions plus pixel list (row-major; the layout is
irrelevant to the claims, which are pointwise). -/
structure MaskImage where
  width : Nat
  height : Nat
  pixels : List RGBA
  deriving DecidableEq

/-- Embedding of getMaskAsBase64 from src/components/MaskingCanvas.tsx for
the case in which the drawing canvas already has the native resolution of
the original image, so that step 1 (drawImage with equal source and
destination rectangles) is a pixel copy. When the drawing canvas or the
original image is not ready the promise is rejected, modelled as none.
The mask canvas is created with the original image natural width and
height, then every pixel goes through the two fills of steps 2 and 3. -/
def getMaskAsBase64 (drawingCanvas : Option MaskImage)
    (originalImage : Option (Nat × Nat)) : Option MaskImage :=
  match drawingCanvas, originalImage with
  | some d, some wh => some ⟨wh.fst, wh.snd, d.pixels.map maskPixel⟩
  | _, _ => none

/-- Export of a whole stroke layer through the per-pixel compositing. -/
def exportPixels (layer : List RGBA) : List RGBA := layer.map maskPixel

/-- A half-opaque red pixel, as produced on the antialiased edge of a brush
stroke drawn in the opaque color ef4444 (rgb 239 68 68). -/
def halfRedPixel : RGBA := ⟨239 / 255, 68 / 255, 68 / 255, 128 / 255⟩

/-- The pixel getMaskAsBase64 actually produces from halfRedPixel: an
opaque mid gray, neither pure white nor pure black. -/
def grayHalfPixel : RGBA := ⟨128 / 255, 128 / 255, 128 / 255, 1⟩

/-! ### Undo/redo history of src/components/MaskingCanvas.tsx -/

/-- State of the drawing canvas and its history refs: the live mask layer
(pixel buffer of the drawing canvas), the snapshot stack historyRef and the
cursor historyIndexRef (an integer, initialized to -1). -/
structure HistoryState where
  layer : List RGBA
  history : List (List RGBA)
  index : ℤ
  deriving DecidableEq

/-- The canUndo flag reported by updateHistoryState:
historyIndexRef.current greater than 0. -/
def canUndo (s : HistoryState) : Bool := decide (0 < s.index)

/-- The canRedo flag reported by updateHistoryState:
historyIndexRef.current less than history length minus 1. -/
def canRedo (s : HistoryState) : Bool :=
  decide (s.index < (s.history.length : ℤ) - 1)

/-- saveState: if the cursor is not at the tip, splice away all entries
beyond it; then push a snapshot of the current layer and advance the
cursor. -/
def saveState (s : HistoryState) : HistoryState :=
  let h :=
    if s.index < (s.history.length : ℤ) - 1 then
      s.history.take (s.index + 1).toNat
    else s.history
  ⟨s.layer, h ++ [s.layer], s.index + 1⟩

/-- restoreState: clear the canvas (all pixels transparent), then, if the
cursor is nonnegative, put the snapshot at the cursor back onto the whole
canvas. -/
def restoreState (s : HistoryState) : HistoryState :=
  ⟨if 0 ≤ s.index then s.history.getD s.index.toNat []
   else List.replicate s.layer.length clearPixel,
   s.history, s.index⟩

/-- undo: only acts when the cursor is positive; decrements it and
restores. -/
def undo (s : HistoryState) : HistoryState :=
  if 0 < s.index then restoreState ⟨s.layer, s.history, s.index - 1⟩ else s

/-- redo: only acts when the cursor is below the tip; increments it and
restores. -/
def redo (s : HistoryState) : HistoryState :=
  if s.index < (s.history.length : ℤ) - 1 then
    restoreState ⟨s.layer, s.history, s.index + 1⟩
  else s

/-- clearMask: clear the canvas, empty the history, reset the cursor to -1,
then save the blank state as entry 0. -/
def clearMask (s : HistoryState) : HistoryState :=
  saveState ⟨List.replicate s.layer.length clearPixel, [], -1⟩

/-- A completed stroke: the pointer drag leaves the drawing canvas holding
a new pixel buffer m, and pointer release calls saveState. -/
def strokeAndSave (m : List RGBA) (s : HistoryState) : HistoryState :=
  saveState ⟨m, s.history, s.index⟩

/-- A sequence of completed strokes, in order. -/
def applyStrokes (ms : List (List RGBA)) (s : HistoryState) : HistoryState :=
  ms.foldl (fun t m => strokeAndSave m t) s

/-- Iterated undo. -/
def undoN : Nat → HistoryState → HistoryState
  | 0, s => s
  | k + 1, s => undoN k (undo s)

/-- Iterated redo. -/
def redoN : Nat → HistoryState → HistoryState
  | 0, s => s
  | k + 1, s => redoN k (redo s)

/-- Canonical history state: stack h with the cursor at position i and the
layer holding the snapshot at i. All states reachable after initialization
have this shape. -/
def stateAt (h : List (List RGBA)) (i : Nat) : HistoryState :=
  ⟨h.getD i [], h, (i : ℤ)⟩

/-! ### Batch generation loop of handleGenerate

A remote response for one image either carries usable image data (some)
or is empty (none, no inlineData in the first candidate part). -/

/-- Loop body of handleGenerate in src/components/ImageEditor.tsx: an empty
response records an error message for that item and the loop continues;
without batch mode the loop stops after the first item. -/
def processBatchMain (isBatchMode : Bool) :
    List (Option Nat) → List Nat → Option String → List Nat × Option String
  | [], acc, err => (acc, err)
  | r :: rest, acc, err =>
    match r with
    | some d =>
      if isBatchMode then processBatchMain isBatchMode rest (acc ++ [d]) err
      else (acc ++ [d], err)
    | none =>
      if isBatchMode then
        processBatchMain isBatchMode rest acc (some "No image data in response.")
      else (acc, some "No image data in response.")

/-- handleGenerate of src/components/ImageEditor.tsx, starting from an
empty processed list and a cleared error. -/
def handleGenerateMain (isBatchMode : Bool) (responses : List (Option Nat)) :
    List Nat × Option String :=
  processBatchMain isBatchMode responses [] none

/-- Loop body of handleGenerate in src/unnamed/part_003: an empty response
throws an Error, which the catch outside the loop receives, so the loop
ends at once and the remaining items are never sent. -/
def processBatchAlt (isBatchMode : Bool) :
    List (Option Nat) → List Nat → List Nat × Option String
  | [], acc => (acc, none)
  | r :: rest, acc =>
    match r with
    | some d =>
      if isBatchMode then processBatchAlt isBatchMode rest (acc ++ [d])
      else (acc ++ [d], none)
    | none => (acc, some "Failed to process image. No image data in response.")

/-- handleGenerate of src/unnamed/part_003. -/
def handleGenerateAlt (isBatchMode : Bool) (responses : List (Option Nat)) :
    List Nat × Option String :=
  processBatchAlt isBatchMode responses []

/-! ### Live conversation lifecycle of src/hooks/useLiveConversation.ts -/

/-- The ConversationStatus union type. -/
inductive CStatus where
  | idle
  | connecting
  | active
  | stopped
  | error
  deriving DecidableEq

/-- The mutable refs and status of the hook: the React status state, the
status value captured by the session callbacks closure (the state value of
the render in which startConversation ran), the audio resource refs as
presence flags, the session promise ref, the playback source tracking set
and the nextStartTimeRef cursor. -/
structure LiveState where
  status : CStatus
  closureStatus : CStatus
  mediaStream : Bool
  scriptProcessor : Bool
  mediaStreamSource : Bool
  inputCtx : Bool
  outputCtx : Bool
  hasSession : Bool
  audioSources : List Nat
  nextStartTime : ℚ
  deriving DecidableEq

/-- stopAudioProcessing: stop the media tracks, disconnect the processing
nodes, close both audio contexts and null every audio ref; each step is
guarded by optional chaining, so it is safe in every state. -/
def stopAudioProcessing (s : LiveState) : LiveState :=
  { s with mediaStream := false, scriptProcessor := false,
           mediaStreamSource := false, inputCtx := false, outputCtx := false }

/-- stopConversation: set status to stopped, tear down audio processing,
close the session inside try/catch (a failing close is only logged; the
finally block nulls the ref either way, so the closeFails flag cannot
change the outcome), stop every tracked playback source, clear the
tracking set and reset the start-time cursor to zero. The second component
lists the sources that received a stop call. -/
def stopConversation (closeFails : Bool) (s : LiveState) : LiveState × List Nat :=
  let s1 := { stopAudioProcessing s with status := CStatus.stopped }
  let s2 := { s1 with hasSession := false }
  let _ := closeFails
  ({ s2 with audioSources := [], nextStartTime := 0 }, s.audioSources)

/-- The lifecycle events a conversation run can see: a user start click
whose try block succeeds, a user start click whose try block throws (the
microphone request or the session open fails), the onopen callback, the
user stop click, the onerror callback and the onclose callback. -/
inductive LiveEvent where
  | start
  | startFailed
  | opened
  | userStop
  | errored
  | closed
  deriving DecidableEq

/-- One lifecycle event handler, returning the new state and the list of
status values written by setStatus, in order. start is a no-op while
connecting or active; otherwise it captures the current status in the
callback closure, acquires the microphone and the audio contexts and opens
the session (success path). startFailed is the same click when the try
block throws at the microphone request: after the connecting write the
catch block only records an error message and writes the error status; no
session exists, no callback was registered and nothing is torn down.
onopen wires the capture pipeline and sets active. The user stop runs
stopConversation. onerror sets error and then runs stopConversation, which
sets stopped. onclose compares the stale closure status with stopped and,
when different, returns to idle and tears down audio processing. -/
def handleEvent (s : LiveState) : LiveEvent → LiveState × List CStatus
  | LiveEvent.start =>
    if s.status = CStatus.active ∨ s.status = CStatus.connecting then (s, [])
    else
      ({ s with status := CStatus.connecting, closureStatus := s.status,
                mediaStream := true, inputCtx := true, outputCtx := true,
                hasSession := true },
       [CStatus.connecting])
  | LiveEvent.startFailed =>
    if s.status = CStatus.active ∨ s.status = CStatus.connecting then (s, [])
    else
      ({ s with status := CStatus.error },
       [CStatus.connecting, CStatus.error])
  | LiveEvent.opened =>
    ({ s with status := CStatus.active, mediaStreamSource := true,
              scriptProcessor := true },
     [CStatus.active])
  | LiveEvent.userStop => ((stopConversation false s).fst, [CStatus.stopped])
  | LiveEvent.errored =>
    ((stopConversation false { s with status := CStatus.error }).fst,
     [CStatus.error, CStatus.stopped])
  | LiveEvent.closed =>
    if s.closureStatus ≠ CStatus.stopped then
      ({ stopAudioProcessing s with status := CStatus.idle }, [CStatus.idle])
    else (s, [])

/-- Process a list of lifecycle events, concatenating the status writes. -/
def runEvents (s : LiveState) : List LiveEvent → LiveState × List CStatus
  | [] => (s, [])
  | e :: rest =>
    let t := handleEvent s e
    let u := runEvents t.fst rest
    (u.fst, t.snd ++ u.snd)

/-- The state of the hook right after mounting: idle, no resources. -/
def initLive : LiveState :=
  ⟨CStatus.idle, CStatus.idle, false, false, false, false, false, false, [], 0⟩

/-- The sequence of status values observed over a run: the starting status
followed by every setStatus write. -/
def statusTrace (s : LiveState) (evs : List LiveEvent) : List CStatus :=
  s.status :: (runEvents s evs).snd

/-! ### Audio playback scheduling of the onmessage handler -/

/-- Scheduling one inbound audio chunk: the cursor is first pulled up to
the current audio-clock time, the source starts at the resulting cursor
value, and the cursor then advances by the chunk duration. Returns the
scheduled start time and the new cursor. -/
def scheduleChunk (currentTime cursor dur : ℚ) : ℚ × ℚ :=
  let start := max cursor currentTime
  (start, start + dur)

/-- Scheduling a list of chunk durations arriving at one audio-clock time,
in arrival order. Returns the start times and the final cursor. -/
def scheduleChunks (currentTime : ℚ) : List ℚ → ℚ → List ℚ × ℚ
  | [], cursor => ([], cursor)
  | d :: rest, cursor =>
    let p := scheduleChunk currentTime cursor d
    let q := scheduleChunks currentTime rest p.snd
    (p.fst :: q.fst, q.snd)

/-! ### Transcript assembly of the onmessage handler -/

/-- The speaker tag of a transcript entry. -/
inductive Speaker where
  | user
  | model
  deriving DecidableEq

/-- One committed transcript entry. -/
structure TranscriptEntry where
  speaker : Speaker
  text : String
  deriving DecidableEq

/-- The transcription-related fields of one inbound LiveServerMessage. -/
structure ServerMessage where
  inputTranscription : Option String
  outputTranscription : Option String
  turnComplete : Bool
  deriving DecidableEq

/-- The transcription state of the hook: the two pending utterance buffer
refs and the committed transcript. -/
structure TranscriptState where
  currentInputTranscription : String
  currentOutputTranscription : String
  transcript : List TranscriptEntry
  deriving DecidableEq

/-- Text carried by an optional transcription field. -/
def optText : Option String → String
  | none => ""
  | some t => t

/-- Drop leading whitespace characters from a character list. -/
def dropWhitespaceLeft : List Char → List Char
  | [] => []
  | c :: r => if c.isWhitespace then dropWhitespaceLeft r else c :: r

/-- The JavaScript String trim operation: remove leading and trailing
whitespace. Embedded structurally so that it evaluates by kernel
reduction. -/
def jsTrim (s : String) : String :=
  ⟨dropWhitespaceLeft (dropWhitespaceLeft s.data.reverse).reverse⟩

/-- The transcription part of the onmessage handler: append any partial
input transcription to the input buffer, append any partial output
transcription to the output buffer, and on turnComplete trim both buffers,
commit the nonempty ones (user before model) and reset both buffers. -/
def onMessage (s : TranscriptState) (m : ServerMessage) : TranscriptState :=
  let inBuf := s.currentInputTranscription ++ optText m.inputTranscription
  let outBuf := s.currentOutputTranscription ++ optText m.outputTranscription
  if m.turnComplete then
    let userInput := jsTrim inBuf
    let modelOutput := jsTrim outBuf
    let newEntries :=
      (if userInput ≠ "" then [TranscriptEntry.mk Speaker.user userInput] else [])
        ++ (if modelOutput ≠ "" then [TranscriptEntry.mk Speaker.model modelOutput] else [])
    ⟨"", "", s.transcript ++ newEntries⟩
  else ⟨inBuf, outBuf, s.transcript⟩

/-- Process a list of inbound messages in arrival order. -/
def runMessages (s : TranscriptState) (ms : List ServerMessage) : TranscriptState :=
  ms.foldl onMessage s

/-- The input buffer content after a list of messages none of which ends
the turn: the initial buffer followed by every partial input text in
order. -/
def accumulatedInput (init : String) (ms : List ServerMessage) : String :=
  ms.foldl (fun acc x => acc ++ optText x.inputTranscription) init

/-- The output buffer analogue of accumulatedInput. -/
def accumulatedOutput (init : String) (ms : List ServerMessage) : String :=
  ms.foldl (fun acc x => acc ++ optText x.outputTranscription) init

/-- A message carrying only a partial input transcription. -/
def msgIn (t : String) : ServerMessage := ⟨some t, none, false⟩

/-- A message carrying only a partial output transcription. -/
def msgOut (t : String) : ServerMessage := ⟨none, some t, false⟩

/-- A bare turnComplete message. -/
def msgTurn : ServerMessage := ⟨none, none, true⟩

/-- Sample history state for witnesses: blank entry, two stroke entries,
cursor at the tip. -/
def c8SampleState : HistoryState := ⟨[black1], [[], [white1], [black1]], 2⟩

/-- Sample transcript state for witnesses: a whitespace-only pending input
buffer, a padded pending output buffer and one committed entry. -/
def c10SampleState : TranscriptState :=
  ⟨"  ", " hi there ", [TranscriptEntry.mk Speaker.user "yo"]⟩

/-- Sample lifecycle state for witnesses: an active session whose
callbacks were created while the status was idle, with one tracked
playback source and a nonzero cursor. -/
def c4SampleState : LiveState :=
  ⟨CStatus.active, CStatus.idle, true, true, true, true, true, true, [3], 1⟩

/-! ## Helper lemmas about the history stack -/

theorem restoreState_of_nonneg (l : List RGBA) (h : List (List RGBA)) (i : ℤ)
    (hi : 0 ≤ i) : restoreState ⟨l, h, i⟩ = ⟨h.getD i.toNat [], h, i⟩ := by
  simp [restoreState, hi]

theorem undo_stateAt_succ (h : List (List RGBA)) (j : Nat) :
    undo (stateAt h (j + 1)) = stateAt h j := by
  have h1 : (0 : ℤ) < ((j + 1 : Nat) : ℤ) := by exact_mod_cast Nat.succ_pos j
  have h2 : ((j + 1 : Nat) : ℤ) - 1 = (j : ℤ) := by push_cast; ring
  simp only [stateAt, undo]
  rw [if_pos h1, h2, restoreState_of_nonneg _ _ _ (Int.natCast_nonneg j),
    Int.toNat_natCast]

theorem undoN_stateAt (k : Nat) (h : List (List RGBA)) :
    ∀ i : Nat, undoN k (stateAt h (i + k)) = stateAt h i := by
  induction k with
  | zero => intro i; rfl
  | succ k ih =>
    intro i
    show undoN k (undo (stateAt h (i + (k + 1)))) = stateAt h i
    have e : i + (k + 1) = (i + k) + 1 := by omega
    rw [e, undo_stateAt_succ, ih i]

theorem redo_stateAt_succ (h : List (List RGBA)) (i : Nat)
    (hi : i + 1 < h.length) : redo (stateAt h i) = stateAt h (i + 1) := by
  have h1 : (i : ℤ) < (h.length : ℤ) - 1 := by omega
  have h2 : (i : ℤ) + 1 = ((i + 1 : Nat) : ℤ) := by push_cast; ring
  simp only [stateAt, redo]
  rw [if_pos h1, h2, restoreState_of_nonneg _ _ _ (Int.natCast_nonneg (i + 1)),
    Int.toNat_natCast]

theorem redoN_stateAt (k : Nat) (h : List (List RGBA)) :
    ∀ i : Nat, i + k < h.length → redoN k (stateAt h i) = stateAt h (i + k) := by
  induction k with
  | zero => intro i _; rfl
  | succ k ih =>
    intro i hik
    show redoN k (redo (stateAt h i)) = stateAt h (i + (k + 1))
    rw [redo_stateAt_succ h i (by omega), ih (i + 1) (by omega)]
    congr 1
    omega

theorem clearMask_eq (s : HistoryState) :
    clearMask s = stateAt [List.replicate s.layer.length clearPixel] 0 := by
  simp only [clearMask, saveState, stateAt]
  rw [if_neg (by simp)]
  simp [List.getD]

theorem strokeAndSave_stateAt (m : List RGBA) (h : List (List RGBA)) (i : Nat)
    (hi : i + 1 = h.length) :
    strokeAndSave m (stateAt h i) = stateAt (h ++ [m]) (i + 1) := by
  simp only [strokeAndSave, saveState, stateAt]
  rw [if_neg (by omega)]
  have hget : (h ++ [m]).getD (i + 1) [] = m := by
    rw [List.getD_eq_getElem?_getD, hi, List.getElem?_concat_length]
    rfl
  rw [hget]
  congr 1

theorem applyStrokes_stateAt (ms : List (List RGBA)) :
    ∀ (h : List (List RGBA)) (i : Nat), i + 1 = h.length →
    applyStrokes ms (stateAt h i) = stateAt (h ++ ms) (i + ms.length) := by
  induction ms with
  | nil => intro h i _; simp [applyStrokes]
  | cons m rest ih =>
    intro h i hi
    show applyStrokes rest (strokeAndSave m (stateAt h i)) = _
    rw [strokeAndSave_stateAt m h i hi,
      ih (h ++ [m]) (i + 1) (by simp [List.length_append]; omega)]
    rw [List.append_assoc]
    simp only [List.singleton_append, List.length_cons]
    congr 1
    omega

theorem maskPixel_clearPixel : maskPixel clearPixel = black1 := by
  norm_num [maskPixel, sourceIn, destinationOver, pdCompose, white1, black1,
    clearPixel]

theorem undo_fields (s : HistoryState) (h0 : 0 ≤ s.index)
    (h1 : s.index < (s.history.length : ℤ)) :
    (undo s).history = s.history ∧ 0 ≤ (undo s).index ∧
    (undo s).index < (s.history.length : ℤ) := by
  unfold undo
  split
  · refine ⟨rfl, ?_, ?_⟩
    · show 0 ≤ s.index - 1
      omega
    · show s.index - 1 < (s.history.length : ℤ)
      omega
  · exact ⟨rfl, h0, h1⟩

theorem undoN_fields (k : Nat) :
    ∀ s : HistoryState, 0 ≤ s.index → s.index < (s.history.length : ℤ) →
    (undoN k s).history = s.history ∧ 0 ≤ (undoN k s).index ∧
    (undoN k s).index < (s.history.length : ℤ) := by
  induction k with
  | zero => intro s h0 h1; exact ⟨rfl, h0, h1⟩
  | succ k ih =>
    intro s h0 h1
    obtain ⟨e, p, q⟩ := undo_fields s h0 h1
    obtain ⟨e2, p2, q2⟩ := ih (undo s) p (by rw [e]; exact q)
    exact ⟨by rw [show undoN (k+1) s = undoN k (undo s) from rfl, e2, e],
      p2, by rw [show undoN (k+1) s = undoN k (undo s) from rfl]; rw [e] at q2; exact q2⟩

theorem strokeAndSave_tip (u : HistoryState) (m : List RGBA) (h0 : 0 ≤ u.index)
    (h1 : u.index < (u.history.length : ℤ)) :
    (strokeAndSave m u).history = u.history.take (u.index + 1).toNat ++ [m]
    ∧ (strokeAndSave m u).index = ((strokeAndSave m u).history.length : ℤ) - 1 := by
  simp only [strokeAndSave, saveState]
  split
  · constructor
    · rfl
    · simp only [List.length_append, List.length_take, List.length_cons,
        List.length_nil]
      omega
  · constructor
    · rw [List.take_of_length_le (by omega)]
    · simp only [List.length_append, List.length_cons, List.length_nil]
      omega

theorem redo_of_tip (t : HistoryState)
    (h : t.index = (t.history.length : ℤ) - 1) : redo t = t := by
  unfold redo
  rw [if_neg (by omega)]

theorem redoN_of_tip (j : Nat) (t : HistoryState)
    (h : t.index = (t.history.length : ℤ) - 1) : redoN j t = t := by
  induction j with
  | zero => rfl
  | succ j ih =>
    show redoN j (redo t) = t
    rw [redo_of_tip t h]
    exact ih

/-! ## Claim theorems -/

/-- C2: after initialization (clearMask) and any sequence of N completed
strokes, N undo calls bring the mask layer back to the blank state, whose
export is all black, and N redo calls then restore, bit for bit, the pixel
state the layer had after the N-th stroke. -/
theorem c2_undoN_blank_redoN_restores (s : HistoryState)
    (ms : List (List RGBA)) :
    (undoN ms.length (applyStrokes ms (clearMask s))).layer
        = List.replicate s.layer.length clearPixel
    ∧ exportPixels (undoN ms.length (applyStrokes ms (clearMask s))).layer
        = List.replicate s.layer.length black1
    ∧ (redoN ms.length (undoN ms.length (applyStrokes ms (clearMask s)))).layer
        = (applyStrokes ms (clearMask s)).layer := by
  have h0 : clearMask s = stateAt [List.replicate s.layer.length clearPixel] 0 :=
    clearMask_eq s
  have h1 : applyStrokes ms (clearMask s)
      = stateAt ([List.replicate s.layer.length clearPixel] ++ ms)
          (0 + ms.length) := by
    rw [h0]
    exact applyStrokes_stateAt ms _ 0 (by simp)
  have h2 : undoN ms.length (applyStrokes ms (clearMask s))
      = stateAt ([List.replicate s.layer.length clearPixel] ++ ms) 0 := by
    rw [h1]
    exact undoN_stateAt ms.length _ 0
  have hblank :
      (stateAt ([List.replicate s.layer.length clearPixel] ++ ms) 0).layer
        = List.replicate s.layer.length clearPixel := by
    simp [stateAt, List.getD]
  refine ⟨by rw [h2, hblank], ?_, ?_⟩
  · rw [h2, hblank]
    unfold exportPixels
    rw [List.map_replicate, maskPixel_clearPixel]
  · rw [h2]
    rw [redoN_stateAt ms.length _ 0 (by simp), h1]

/-- C7: after clearMask on an initialized canvas, the history has exactly
one entry (the blank snapshot at index 0), the cursor is 0, and the
reported canUndo and canRedo flags, computed as cursor greater than 0 and
cursor below length minus 1, are both false. -/
theorem c7_clearMask_history_and_flags (s : HistoryState) :
    (clearMask s).history.length = 1 ∧ (clearMask s).index = 0
    ∧ canUndo (clearMask s) = false ∧ canRedo (clearMask s) = false := by
  rw [clearMask_eq s]
  refine ⟨rfl, rfl, ?_, ?_⟩ <;> simp [canUndo, canRedo, stateAt]

/-- C8: committing a new stroke after k undo calls first discards every
history entry beyond the cursor and then appends the new snapshot, so the
saved state sits at the tip and every subsequent redo call is a no-op that
changes neither the cursor nor the mask layer. -/
theorem c8_save_truncates_redo_noop (s : HistoryState) (m : List RGBA)
    (k j : Nat) (h0 : 0 ≤ s.index)
    (h1 : s.index < (s.history.length : ℤ)) :
    (strokeAndSave m (undoN k s)).history
        = (undoN k s).history.take ((undoN k s).index + 1).toNat ++ [m]
    ∧ redoN j (strokeAndSave m (undoN k s)) = strokeAndSave m (undoN k s) := by
  obtain ⟨e, p, q⟩ := undoN_fields k s h0 h1
  have q2 : (undoN k s).index < ((undoN k s).history.length : ℤ) := by
    rw [e]; exact q
  obtain ⟨a, b⟩ := strokeAndSave_tip (undoN k s) m p q2
  exact ⟨a, redoN_of_tip j _ b⟩

/-- Witness for C8 at a concrete three-entry history with the cursor at 2,
one undo, a new stroke, and two redo calls. -/
theorem c8_save_truncates_redo_noop_witness :
    (strokeAndSave [white1] (undoN 1 c8SampleState)).history
        = (undoN 1 c8SampleState).history.take
            ((undoN 1 c8SampleState).index + 1).toNat ++ [[white1]]
    ∧ redoN 2 (strokeAndSave [white1] (undoN 1 c8SampleState))
        = strokeAndSave [white1] (undoN 1 c8SampleState) :=
  c8_save_truncates_redo_noop c8SampleState [white1] 1 2 (by decide) (by decide)

/-- C1: evaluation of getMaskAsBase64 at a failing input. A drawing canvas
holding a single half-opaque red pixel (a typical antialiased stroke edge)
over a one by one original image yields a mask whose only pixel is an
opaque mid gray, which is neither pure white nor pure black: the source-in
white fill keeps the source alpha, and the destination-over black fill
then blends that alpha into a gray level instead of binarizing it. The
reported dimensions do follow the original image. -/
theorem c1_half_alpha_pixel_becomes_gray_not_white :
    getMaskAsBase64 (some ⟨1, 1, [halfRedPixel]⟩) (some (1, 1))
        = some ⟨1, 1, [grayHalfPixel]⟩
    ∧ grayHalfPixel ≠ white1 ∧ grayHalfPixel ≠ black1
    ∧ halfRedPixel.a ≠ 0 := by
  refine ⟨?_, ?_, ?_, ?_⟩
  · simp only [getMaskAsBase64, List.map_cons, List.map_nil,
      Option.some.injEq, MaskImage.mk.injEq, List.cons.injEq]
    norm_num [maskPixel, sourceIn, destinationOver, pdCompose, white1, black1,
      halfRedPixel, grayHalfPixel]
  · norm_num [grayHalfPixel, white1, RGBA.mk.injEq]
  · norm_num [grayHalfPixel, black1, RGBA.mk.injEq]
  · norm_num [halfRedPixel]

/-- C3 counterexample: in the handleGenerate of src/unnamed/part_003, a
batch of two images whose first remote response is empty aborts the loop:
the second, usable response is never processed, so the processed list is
empty instead of containing it. -/
theorem c3_alt_batch_aborts_counterexample :
    (handleGenerateAlt true [none, some 5]).fst = []
    ∧ ¬ 5 ∈ (handleGenerateAlt true [none, some 5]).fst := by
  constructor <;> decide

theorem processBatchMain_skips_empty (rs : List (Option Nat)) :
    ∀ (acc : List Nat) (err : Option String),
    (processBatchMain true rs acc err).fst = acc ++ rs.filterMap id := by
  induction rs with
  | nil => intro acc err; simp [processBatchMain]
  | cons r rest ih =>
    intro acc err
    match r with
    | some d =>
      show (processBatchMain true rest (acc ++ [d]) err).fst = _
      rw [ih (acc ++ [d]) err]
      simp
    | none =>
      show (processBatchMain true rest acc _).fst = _
      rw [ih acc _]
      simp

/-- C3 amended: in the handleGenerate of src/components/ImageEditor.tsx,
an empty response only records an error message and the batch loop
continues, so every sibling image whose response carries data is
processed, in order, no matter where empty responses occur. -/
theorem c3_main_batch_processes_all_siblings (rs : List (Option Nat)) :
    (handleGenerateMain true rs).fst = rs.filterMap id := by
  unfold handleGenerateMain
  rw [processBatchMain_skips_empty rs [] none]
  rfl

/-- C4 counterexample: two conversation runs reach a terminal state and
never return to idle. First, a restart clicked while the status is
stopped (after a user stop, before the close callback has fired) makes
the new session callbacks capture the stopped status, so when the close
callback finally completes the teardown it compares stopped with stopped
and skips the idle write: the run ends at stopped for good. Second, a
start attempt whose try block throws ends at error with no session and
no close callback ever to arrive, so error never transitions back to
idle. -/
theorem c4_stale_close_and_start_failure_counterexample :
    (runEvents initLive
        [LiveEvent.start, LiveEvent.opened, LiveEvent.userStop,
          LiveEvent.start, LiveEvent.opened, LiveEvent.userStop,
          LiveEvent.closed]).fst.status = CStatus.stopped
    ∧ statusTrace initLive
        [LiveEvent.start, LiveEvent.opened, LiveEvent.userStop,
          LiveEvent.start, LiveEvent.opened, LiveEvent.userStop,
          LiveEvent.closed]
      = [CStatus.idle, CStatus.connecting, CStatus.active, CStatus.stopped,
          CStatus.connecting, CStatus.active, CStatus.stopped]
    ∧ (runEvents initLive [LiveEvent.startFailed]).fst.status = CStatus.error
    ∧ (runEvents initLive [LiveEvent.startFailed]).fst.hasSession = false
    ∧ statusTrace initLive [LiveEvent.startFailed]
      = [CStatus.idle, CStatus.connecting, CStatus.error] := by
  refine ⟨rfl, rfl, rfl, rfl, rfl⟩

/-- C4 amended: in every state, a user stop leaves the status stopped and
a session error writes error and then stopped; in every state whose
captured closure status differs from stopped — which holds for every
session opened from idle — the close callback that completes the teardown
writes idle; hence the canonical stop and error runs trace idle,
connecting, active, stopped, idle and idle, connecting, active, error,
stopped, idle, both ending at idle. A close callback whose captured
status is stopped is a no-op, and a failed start stays at error, the two
cases of the counterexample. -/
theorem c4_terminal_teardown_amended :
    (∀ s : LiveState,
      (handleEvent s LiveEvent.userStop).fst.status = CStatus.stopped
      ∧ (handleEvent s LiveEvent.userStop).snd = [CStatus.stopped])
    ∧ (∀ s : LiveState,
      (handleEvent s LiveEvent.errored).fst.status = CStatus.stopped
      ∧ (handleEvent s LiveEvent.errored).snd
          = [CStatus.error, CStatus.stopped])
    ∧ (∀ s : LiveState, s.closureStatus ≠ CStatus.stopped →
      (handleEvent s LiveEvent.closed).fst.status = CStatus.idle
      ∧ (handleEvent s LiveEvent.closed).snd = [CStatus.idle])
    ∧ statusTrace initLive
        [LiveEvent.start, LiveEvent.opened, LiveEvent.userStop,
          LiveEvent.closed]
      = [CStatus.idle, CStatus.connecting, CStatus.active, CStatus.stopped,
          CStatus.idle]
    ∧ statusTrace initLive
        [LiveEvent.start, LiveEvent.opened, LiveEvent.errored,
          LiveEvent.closed]
      = [CStatus.idle, CStatus.connecting, CStatus.active, CStatus.error,
          CStatus.stopped, CStatus.idle]
    ∧ (runEvents initLive
        [LiveEvent.start, LiveEvent.opened, LiveEvent.userStop,
          LiveEvent.closed]).fst.status = CStatus.idle
    ∧ (runEvents initLive
        [LiveEvent.start, LiveEvent.opened, LiveEvent.errored,
          LiveEvent.closed]).fst.status = CStatus.idle := by
  refine ⟨fun s => ⟨rfl, rfl⟩, fun s => ⟨rfl, rfl⟩, ?_, rfl, rfl, rfl, rfl⟩
  intro s h
  simp only [handleEvent]
  rw [if_pos h]
  exact ⟨rfl, rfl⟩

/-- Witness for C4 amended at a concrete active state whose callbacks
captured the idle status: its close callback writes idle. -/
theorem c4_terminal_teardown_amended_witness :
    c4SampleState.closureStatus ≠ CStatus.stopped
    ∧ (handleEvent c4SampleState LiveEvent.closed).fst.status = CStatus.idle
    ∧ (handleEvent c4SampleState LiveEvent.closed).snd = [CStatus.idle] :=
  ⟨by decide,
   (c4_terminal_teardown_amended.2.2.1 c4SampleState (by decide)).1,
   (c4_terminal_teardown_amended.2.2.1 c4SampleState (by decide)).2⟩

/-- C9: stopConversation is a total function of the state (never throws),
leaves the status stopped, releases the session and every audio capture
resource, sends stop to exactly the tracked playback sources, clears the
tracking set and zeroes the start-time cursor; a second call is a no-op on
the state and stops nothing further, and a failing remote close changes
nothing. -/
theorem c9_stopConversation_unconditional_idempotent (b : Bool)
    (s : LiveState) :
    (stopConversation b s).fst.status = CStatus.stopped
    ∧ (stopConversation b s).fst.audioSources = []
    ∧ (stopConversation b s).fst.nextStartTime = 0
    ∧ (stopConversation b s).fst.hasSession = false
    ∧ (stopConversation b s).fst.mediaStream = false
    ∧ (stopConversation b s).fst.scriptProcessor = false
    ∧ (stopConversation b s).fst.mediaStreamSource = false
    ∧ (stopConversation b s).fst.inputCtx = false
    ∧ (stopConversation b s).fst.outputCtx = false
    ∧ (stopConversation b s).snd = s.audioSources
    ∧ stopConversation b (stopConversation b s).fst
        = ((stopConversation b s).fst, [])
    ∧ stopConversation true s = stopConversation false s := by
  refine ⟨rfl, rfl, rfl, rfl, rfl, rfl, rfl, rfl, rfl, rfl, rfl, rfl⟩

/-- C5: each inbound audio chunk is scheduled at the maximum of the cursor
and the current audio-clock time, after which the cursor advances by
exactly the chunk duration; hence three chunks of half, three-tenths and
one-fifth of a second arriving at one clock time t0 start at t0, t0 plus
one half and t0 plus four-fifths, back to back. -/
theorem c5_gapless_scheduling :
    (∀ currentTime cursor dur : ℚ,
      scheduleChunk currentTime cursor dur
        = (max cursor currentTime, max cursor currentTime + dur))
    ∧ ∀ t0 : ℚ, 0 ≤ t0 →
      (scheduleChunks t0 [1 / 2, 3 / 10, 1 / 5] 0).fst
        = [t0, t0 + 1 / 2, t0 + 4 / 5] := by
  constructor
  · intro currentTime cursor dur
    rfl
  · intro t0 ht
    have e1 : max (0 : ℚ) t0 = t0 := max_eq_right ht
    have e2 : max (t0 + 1 / 2) t0 = t0 + 1 / 2 := max_eq_left (by linarith)
    have e3 : max (t0 + 1 / 2 + 3 / 10) t0 = t0 + 1 / 2 + 3 / 10 :=
      max_eq_left (by linarith)
    show ([max (0 : ℚ) t0,
          max (max (0 : ℚ) t0 + 1 / 2) t0,
          max (max (max (0 : ℚ) t0 + 1 / 2) t0 + 3 / 10) t0], _).fst
        = [t0, t0 + 1 / 2, t0 + 4 / 5]
    rw [e1, e2, e3]
    have e4 : t0 + 1 / 2 + 3 / 10 = t0 + 4 / 5 := by ring
    rw [e4]

/-- Witness for C5 at the clock time zero. -/
theorem c5_gapless_scheduling_witness :
    (scheduleChunks 0 [1 / 2, 3 / 10, 1 / 5] 0).fst
      = [0, 0 + 1 / 2, 0 + 4 / 5] :=
  c5_gapless_scheduling.2 0 (le_refl 0)

/-! Transcript assembly lemmas. -/

theorem onMessage_no_turn (s : TranscriptState) (x : ServerMessage)
    (hx : x.turnComplete = false) :
    onMessage s x =
      ⟨s.currentInputTranscription ++ optText x.inputTranscription,
       s.currentOutputTranscription ++ optText x.outputTranscription,
       s.transcript⟩ := by
  unfold onMessage
  rw [hx]
  rfl

theorem onMessage_turn (s : TranscriptState) (m : ServerMessage)
    (hm : m.turnComplete = true) :
    onMessage s m =
      ⟨"", "",
       s.transcript ++
         ((if jsTrim (s.currentInputTranscription ++ optText m.inputTranscription) ≠ "" then
             [TranscriptEntry.mk Speaker.user
               (jsTrim (s.currentInputTranscription ++ optText m.inputTranscription))]
           else [])
          ++ (if jsTrim (s.currentOutputTranscription ++ optText m.outputTranscription) ≠ "" then
             [TranscriptEntry.mk Speaker.model
               (jsTrim (s.currentOutputTranscription ++ optText m.outputTranscription))]
           else []))⟩ := by
  unfold onMessage
  rw [hm]
  rfl

theorem runMessages_no_turn (msgs : List ServerMessage) :
    ∀ s : TranscriptState, (∀ x ∈ msgs, x.turnComplete = false) →
    runMessages s msgs =
      ⟨accumulatedInput s.currentInputTranscription msgs,
       accumulatedOutput s.currentOutputTranscription msgs,
       s.transcript⟩ := by
  induction msgs with
  | nil => intro s _; rfl
  | cons x rest ih =>
    intro s hall
    have hx : x.turnComplete = false := hall x (List.mem_cons_self x rest)
    show runMessages (onMessage s x) rest = _
    rw [onMessage_no_turn s x hx,
      ih _ (fun y hy => hall y (List.mem_cons_of_mem x hy))]
    rfl

/-- C6: within one turn, whatever the interleaving of the partial input
and output transcription events, the turnComplete flush appends the
trimmed concatenated user utterance (when nonempty) before the trimmed
concatenated model utterance (when nonempty). -/
theorem c6_user_before_model_on_turn_complete (s : TranscriptState)
    (msgs : List ServerMessage) (m : ServerMessage)
    (h1 : ∀ x ∈ msgs, x.turnComplete = false)
    (hm : m.turnComplete = true) :
    (runMessages s (msgs ++ [m])).transcript =
      s.transcript ++
        ((if jsTrim (accumulatedInput s.currentInputTranscription (msgs ++ [m])) ≠ "" then
            [TranscriptEntry.mk Speaker.user
              (jsTrim (accumulatedInput s.currentInputTranscription (msgs ++ [m])))]
          else [])
         ++ (if jsTrim (accumulatedOutput s.currentOutputTranscription (msgs ++ [m])) ≠ "" then
            [TranscriptEntry.mk Speaker.model
              (jsTrim (accumulatedOutput s.currentOutputTranscription (msgs ++ [m])))]
          else [])) := by
  have e : runMessages s (msgs ++ [m]) = onMessage (runMessages s msgs) m := by
    unfold runMessages
    rw [List.foldl_append]
    rfl
  have ai : accumulatedInput s.currentInputTranscription (msgs ++ [m])
      = accumulatedInput s.currentInputTranscription msgs
          ++ optText m.inputTranscription := by
    unfold accumulatedInput
    rw [List.foldl_append]
    rfl
  have ao : accumulatedOutput s.currentOutputTranscription (msgs ++ [m])
      = accumulatedOutput s.currentOutputTranscription msgs
          ++ optText m.outputTranscription := by
    unfold accumulatedOutput
    rw [List.foldl_append]
    rfl
  rw [e, runMessages_no_turn msgs s h1, onMessage_turn _ m hm, ai, ao]

/-- Witness for C6 at the spec example: partial input he, partial output
hi, partial input llo, then turnComplete. -/
theorem c6_user_before_model_witness :
    (runMessages ⟨"", "", []⟩
        ([msgIn "he", msgOut "hi", msgIn "llo"] ++ [msgTurn])).transcript
      = [TranscriptEntry.mk Speaker.user "hello",
         TranscriptEntry.mk Speaker.model "hi"] := by
  have h := c6_user_before_model_on_turn_complete ⟨"", "", []⟩
    [msgIn "he", msgOut "hi", msgIn "llo"] msgTurn (by decide) rfl
  exact h.trans (by decide)

/-- C10: on every turnComplete event the two pending buffers are reset to
empty, and the committed entries are exactly the trimmed buffers, each
skipped when trimming leaves it empty. -/
theorem c10_trim_and_reset_on_turn_complete (s : TranscriptState)
    (m : ServerMessage) (hm : m.turnComplete = true) :
    (onMessage s m).currentInputTranscription = ""
    ∧ (onMessage s m).currentOutputTranscription = ""
    ∧ (onMessage s m).transcript =
        s.transcript ++
          ((if jsTrim (s.currentInputTranscription ++ optText m.inputTranscription) ≠ "" then
              [TranscriptEntry.mk Speaker.user
                (jsTrim (s.currentInputTranscription ++ optText m.inputTranscription))]
            else [])
           ++ (if jsTrim (s.currentOutputTranscription ++ optText m.outputTranscription) ≠ "" then
              [TranscriptEntry.mk Speaker.model
                (jsTrim (s.currentOutputTranscription ++ optText m.outputTranscription))]
            else [])) := by
  rw [onMessage_turn s m hm]
  exact ⟨rfl, rfl, rfl⟩

/-- Witness for C10: a whitespace-only pending input buffer yields no user
entry, the padded output buffer commits trimmed, and both buffers reset. -/
theorem c10_trim_and_reset_witness :
    (onMessage c10SampleState msgTurn).currentInputTranscription = ""
    ∧ (onMessage c10SampleState msgTurn).currentOutputTranscription = ""
    ∧ (onMessage c10SampleState msgTurn).transcript
        = [TranscriptEntry.mk Speaker.user "yo",
           TranscriptEntry.mk Speaker.model "hi there"] := by
  have h := c10_trim_and_reset_on_turn_complete c10SampleState msgTurn rfl
  exact ⟨h.1, h.2.1, h.2.2.trans (by decide)⟩

end ImageTool
